import Mathlib

/-!
Shallow embedding of `src/backend/routers/announcements.py`: the announcement
lifecycle endpoints (list, create, update, delete) of the school management
API, together with proofs about their visibility, validation and frame
behaviour.

Modelling conventions:
* Calendar-date strings are parsed as Python's
  `datetime.strptime(s, "%Y-%m-%d").date()` does: exactly four year digits,
  one or two month digits (1..12), one or two day digits, and the day must
  exist in the given month/year (`parseDate`).
* The list endpoint compares ISO date strings lexicographically (MongoDB's
  `$gte` on strings and Python's `>` on `str`); `strLtL` is that order.
* The MongoDB collection is a list of stored documents with a numeric
  storage key standing in for `_id`; `str(_id)` becomes `keyToId` and the
  `ObjectId(announcement_id)` parse-or-reject becomes `parseKey` (the
  identifier format itself is opaque to the business logic).
* `find_one`, `update_one`, `delete_one` act on the first key match
  (`findKey`, `setFirstKey`, `eraseFirstKey`), as MongoDB does on `_id`.
* HTTP error responses become the `ApiError` sum; the detail strings are kept
  so that which validation fired first stays observable.
-/

namespace Announcements

/-- A digit character `'0'..'9'` (what `\d` matches in `strptime` for ASCII). -/
def isDigitCh (c : Char) : Bool := 48 ≤ c.toNat && c.toNat ≤ 57

/-- Numeric value of a digit list, most significant first. -/
def digitsVal (cs : List Char) : Nat := cs.foldl (fun n c => n * 10 + (c.toNat - 48)) 0

/-- Gregorian leap-year rule, as implemented by Python's `datetime`. -/
def isLeapYear (y : Nat) : Bool := (y % 4 == 0 && y % 100 != 0) || y % 400 == 0

/-- Number of days in a month, as validated by Python's `datetime` constructor. -/
def daysInMonth (y m : Nat) : Nat :=
  if m == 2 then (if isLeapYear y then 29 else 28)
  else if m == 4 || m == 6 || m == 9 || m == 11 then 30
  else 31

/-- A calendar date (no time component), the result of `datetime.strptime(...).date()`. -/
structure Date where
  year : Nat
  month : Nat
  day : Nat
deriving DecidableEq, Repr

/-- Dates ordered through the obvious numeric key; Python compares `date` objects the same way. -/
def Date.toKey (d : Date) : Nat := d.year * 10000 + d.month * 100 + d.day

/-- Strict order on dates (`<` on Python `date` objects). -/
def Date.ltb (a b : Date) : Bool := a.toKey < b.toKey

/-- Split a character list at `'-'` separators, like `str.split("-")`. -/
def splitDash : List Char → List (List Char)
  | [] => [[]]
  | c :: cs =>
    let r := splitDash cs
    if c = '-' then [] :: r
    else
      match r with
      | [] => [[c]]
      | h :: t => (c :: h) :: t

/-- The `datetime.strptime(s, "%Y-%m-%d").date()` call of the router: four
year digits, one or two month digits in `1..12`, one or two day digits, and
the day must exist in that month; anything else raises `ValueError`,
modelled as `none`. -/
def parseDate (s : String) : Option Date :=
  match splitDash s.toList with
  | [ys, ms, ds] =>
    if (ys.length == 4 && ys.all isDigitCh)
        && ((ms.length == 1 || ms.length == 2) && ms.all isDigitCh)
        && ((ds.length == 1 || ds.length == 2) && ds.all isDigitCh) then
      let y := digitsVal ys
      let m := digitsVal ms
      let d := digitsVal ds
      if (1 ≤ y && 1 ≤ m && m ≤ 12) && (1 ≤ d && d ≤ daysInMonth y m) then
        some ⟨y, m, d⟩
      else none
    else none
  | _ => none

/-- Strict lexicographic order on character lists by code point: the order
MongoDB uses for `$gte` on strings and Python uses for `str` comparison
(all dates here are ASCII). -/
def strLtL : List Char → List Char → Bool
  | [], [] => false
  | [], _ :: _ => true
  | _ :: _, [] => false
  | a :: as, b :: bs =>
    if a.toNat < b.toNat then true
    else if b.toNat < a.toNat then false
    else strLtL as bs

/-- String `a >= b` (MongoDB `$gte`). -/
def strGe (a b : String) : Bool := ! strLtL a.toList b.toList

/-- String `a > b` (Python `>` on `str`). -/
def strGt (a b : String) : Bool := strLtL b.toList a.toList

/-- String `a <= b`. -/
def strLe (a b : String) : Bool := ! strLtL b.toList a.toList

/-- Python truthiness of an optional string field: `None` and `""` are falsy. -/
def truthyStr : Option String → Bool
  | none => false
  | some s => s != ""

/-- Decimal digit character for a value `0..9`. -/
def digitChar (d : Nat) : Char :=
  if d = 0 then '0' else if d = 1 then '1' else if d = 2 then '2'
  else if d = 3 then '3' else if d = 4 then '4' else if d = 5 then '5'
  else if d = 6 then '6' else if d = 7 then '7' else if d = 8 then '8' else '9'

/-- Numeric value of a digit character. -/
def charVal (c : Char) : Nat := c.toNat - 48

/-- Decimal digits of `n`, least significant first; the first argument is
structural fuel (any fuel `≥ n` gives the digits of `n`). -/
def natDigitsAux : Nat → Nat → List Char
  | 0, _ => []
  | _ + 1, 0 => []
  | fuel + 1, n + 1 => digitChar ((n + 1) % 10) :: natDigitsAux fuel ((n + 1) / 10)

/-- String form of a storage key, `str(_id)` in the router. -/
def keyToId (k : Nat) : String :=
  if k = 0 then "0" else ⟨(natDigitsAux k k).reverse⟩

/-- Parse a client-supplied identifier back to a storage key; `none` models
the `ObjectId(announcement_id)` constructor raising (caught and turned into
a 400 response). -/
def parseKey (s : String) : Option Nat :=
  if s.toList.isEmpty then none
  else if s.toList.all isDigitCh then some (digitsVal s.toList)
  else none

/-- A document of the `announcements` collection: the storage key `_id` plus
the business fields inserted by `create_announcement` (and only ever
rewritten by `update_announcement`). -/
structure StoredAnnouncement where
  key : Nat
  message : String
  start_date : Option String
  expiration_date : String
  is_active : Bool
deriving DecidableEq, Repr

/-- The public shape returned to clients: `id` (the string form of the
storage key) plus the business fields; the storage key field itself is
deleted before returning (`del announcement["_id"]`). -/
structure Announcement where
  id : String
  message : String
  start_date : Option String
  expiration_date : String
  is_active : Bool
deriving DecidableEq, Repr

/-- The announcements collection plus the key the store will assign next. -/
structure Store where
  nextKey : Nat
  docs : List StoredAnnouncement
deriving DecidableEq, Repr

/-- Projection to the public shape: set `id = str(_id)`, drop the key. -/
def toPublic (d : StoredAnnouncement) : Announcement :=
  { id := keyToId d.key
    message := d.message
    start_date := d.start_date
    expiration_date := d.expiration_date
    is_active := d.is_active }

/-- Error responses raised by the router (HTTP status plus detail collapsed
to the taxonomy of the design). -/
inductive ApiError where
  | unauthorized
  | invalidInput (detail : String)
  | notFound
  | storageFailure
deriving DecidableEq, Repr

/-- Detail string shared by every malformed-date rejection. -/
def invalidDateDetail : String := "Invalid date format. Use YYYY-MM-DD"

/-- Request body of `POST /announcements` (`AnnouncementCreate`). -/
structure AnnouncementCreate where
  message : String
  start_date : Option String := none
  expiration_date : String
  is_active : Bool := true
deriving DecidableEq, Repr

/-- Request body of `PUT /announcements/{id}` (`AnnouncementUpdate`); a
`none` field was not supplied by the client. -/
structure AnnouncementUpdate where
  message : Option String := none
  start_date : Option String := none
  expiration_date : Option String := none
  is_active : Option Bool := none
deriving DecidableEq, Repr

/-- The MongoDB query built by `get_announcements` when `active_only` is
set: `is_active == True` and `expiration_date >= today` (string compare). -/
def mongoActiveQuery (today : String) (d : StoredAnnouncement) : Bool :=
  d.is_active && strGe d.expiration_date today

/-- The Python-side `continue`: skip a fetched document when it has a truthy
`start_date` lying strictly after `today` (string compare). -/
def startDateHides (today : String) (d : StoredAnnouncement) : Bool :=
  truthyStr d.start_date && strGt (d.start_date.getD "") today

/-- The `GET /announcements` handler: fetch by the Mongo query, drop documents hidden by
their start date, and project each survivor to the public shape. `today` is
`date.today().isoformat()`. -/
def get_announcements (store : Store) (today : String) (active_only : Bool) :
    List Announcement :=
  let fetched := if active_only then store.docs.filter (mongoActiveQuery today) else store.docs
  (fetched.filter (fun d => !(active_only && startDateHides today d))).map toPublic

/-- Date validation of `create_announcement`, returning the first error
raised: parse `expiration_date`, reject a past expiration, then (only when
`start_date` is truthy) parse it and reject `start_date > expiration_date`. -/
def createDateError (today : Date) (ann : AnnouncementCreate) : Option ApiError :=
  match parseDate ann.expiration_date with
  | none => some (.invalidInput invalidDateDetail)
  | some exp_date =>
    if Date.ltb exp_date today then
      some (.invalidInput "Expiration date cannot be in the past")
    else if truthyStr ann.start_date then
      match parseDate (ann.start_date.getD "") with
      | none => some (.invalidInput invalidDateDetail)
      | some sd =>
        if Date.ltb exp_date sd then
          some (.invalidInput "Start date cannot be after expiration date")
        else none
    else none

/-- The document `announcement.dict()` inserted by `POST /announcements`,
with the key the store assigns to it. -/
def createdDoc (store : Store) (ann : AnnouncementCreate) : StoredAnnouncement :=
  { key := store.nextKey
    message := ann.message
    start_date := ann.start_date
    expiration_date := ann.expiration_date
    is_active := ann.is_active }

/-- The store after a successful insert: the new document appended, the next
key advanced. -/
def storeAfterCreate (store : Store) (ann : AnnouncementCreate) : Store :=
  { nextKey := store.nextKey + 1, docs := store.docs ++ [createdDoc store ann] }

/-- The `POST /announcements` handler: authenticate the teacher, validate the dates,
insert the document (the store assigns `nextKey`), and return it in public
shape. `today` is `date.today()`. -/
def create_announcement (teachers : List String) (store : Store) (today : Date)
    (ann : AnnouncementCreate) (teacher_username : String) :
    Except ApiError (Announcement × Store) :=
  if !(teachers.contains teacher_username) then
    .error .unauthorized
  else
    match createDateError today ann with
    | some e => .error e
    | none => .ok (toPublic (createdDoc store ann), storeAfterCreate store ann)

/-- Mongo `find_one` by key: the first document carrying the given key. -/
def findKey (docs : List StoredAnnouncement) (k : Nat) : Option StoredAnnouncement :=
  docs.find? (fun d => d.key == k)

/-- Whether some document carries the given key. -/
def hasKey (docs : List StoredAnnouncement) (k : Nat) : Bool :=
  docs.any (fun d => d.key == k)

/-- Mongo `update_one` by key: replace the first document with the given
key by `v`, leaving everything else in place. -/
def setFirstKey (docs : List StoredAnnouncement) (k : Nat) (v : StoredAnnouncement) :
    List StoredAnnouncement :=
  match docs with
  | [] => []
  | d :: ds => if d.key == k then v :: ds else d :: setFirstKey ds k v

/-- Mongo `delete_one` by key: remove the first document with the given key. -/
def eraseFirstKey (docs : List StoredAnnouncement) (k : Nat) : List StoredAnnouncement :=
  match docs with
  | [] => []
  | d :: ds => if d.key == k then ds else d :: eraseFirstKey ds k

/-- The `$set` document applied to a stored record: exactly the fields the
client supplied override, all others keep their stored value. -/
def applyUpdateDoc (d : StoredAnnouncement) (ann : AnnouncementUpdate) : StoredAnnouncement :=
  { d with
    message := ann.message.getD d.message
    start_date := match ann.start_date with | some s => some s | none => d.start_date
    expiration_date := ann.expiration_date.getD d.expiration_date
    is_active := ann.is_active.getD d.is_active }

/-- Whether the update request supplies at least one field (`if update_doc:`). -/
def hasFields (ann : AnnouncementUpdate) : Bool :=
  ann.message.isSome || ann.start_date.isSome || ann.expiration_date.isSome
    || ann.is_active.isSome

/-- Effective post-update expiration date: the supplied value, else the stored one. -/
def effExpiration (old : StoredAnnouncement) (ann : AnnouncementUpdate) : String :=
  ann.expiration_date.getD old.expiration_date

/-- Effective post-update start date: the supplied value, else the stored one. -/
def effStart (old : StoredAnnouncement) (ann : AnnouncementUpdate) : Option String :=
  match ann.start_date with
  | some s => some s
  | none => old.start_date

/-- Date validation of `update_announcement`: only performed when at least
one field was supplied; parses the effective expiration date, and when the
effective start date is truthy parses it and rejects
`start_date > expiration_date`. No past-date check. -/
def updateDateError (old : StoredAnnouncement) (ann : AnnouncementUpdate) : Option ApiError :=
  if hasFields ann then
    match parseDate (effExpiration old ann) with
    | none => some (.invalidInput invalidDateDetail)
    | some exp_obj =>
      if truthyStr (effStart old ann) then
        match parseDate ((effStart old ann).getD "") with
        | none => some (.invalidInput invalidDateDetail)
        | some st_obj =>
          if Date.ltb exp_obj st_obj then
            some (.invalidInput "Start date cannot be after expiration date")
          else none
      else none
  else none

/-- The `PUT /announcements/<id>` handler: authenticate, parse the identifier, look up
the record, validate the effective dates, apply the supplied fields, and
return the updated record in public shape. -/
def update_announcement (teachers : List String) (store : Store) (announcement_id : String)
    (ann : AnnouncementUpdate) (teacher_username : String) :
    Except ApiError (Announcement × Store) :=
  if !(teachers.contains teacher_username) then
    .error .unauthorized
  else
    match parseKey announcement_id with
    | none => .error (.invalidInput "Invalid announcement ID")
    | some obj_id =>
      match findKey store.docs obj_id with
      | none => .error .notFound
      | some existing =>
        match updateDateError existing ann with
        | some e => .error e
        | none =>
          let updated := applyUpdateDoc existing ann
          .ok (toPublic updated, { store with docs := setFirstKey store.docs obj_id updated })

/-- The `DELETE /announcements/<id>` handler: authenticate, parse the identifier, delete
the first matching document, `404` when nothing matched. -/
def delete_announcement (teachers : List String) (store : Store) (announcement_id : String)
    (teacher_username : String) : Except ApiError (String × Store) :=
  if !(teachers.contains teacher_username) then
    .error .unauthorized
  else
    match parseKey announcement_id with
    | none => .error (.invalidInput "Invalid announcement ID")
    | some obj_id =>
      if hasKey store.docs obj_id then
        .ok ("Announcement deleted successfully",
          { store with docs := eraseFirstKey store.docs obj_id })
      else .error .notFound

/-- Point lookup by public id, as the update endpoint performs it:
`ObjectId(id)` then `find_one({"_id": obj_id})`. -/
def get_by_id (store : Store) (id : String) : Option StoredAnnouncement :=
  (parseKey id).bind (fun k => findKey store.docs k)

/-- Visibility predicate written from the specification's words: `is_active ==
true` AND `expiration_date >= reference_date` AND (`start_date` is absent OR
`start_date <= reference_date`). Compared against the implementation's
two-stage filter. -/
def specActiveVisible (today : String) (d : StoredAnnouncement) : Bool :=
  d.is_active && (strGe d.expiration_date today
    && (d.start_date.isNone || strLe (d.start_date.getD "") today))

/-- Creation-rejection predicate written from the claim's words: `InvalidInput`
exactly when the expiration string is malformed, or the well-formed expiration
is strictly before today, or a supplied `start_date` is malformed, or
`start_date > expiration_date`. -/
def claimCreateRejects (today : Date) (ann : AnnouncementCreate) : Bool :=
  match parseDate ann.expiration_date with
  | none => true
  | some exp_date =>
    Date.ltb exp_date today ||
      (match ann.start_date with
       | none => false
       | some s =>
         match parseDate s with
         | none => true
         | some st => Date.ltb exp_date st)

/-- Creation validation following the amended claim's words: the first failing
check in order determines the error, with a supplied empty-string
`start_date` treated as absent (skipping the start-date checks). -/
def specCreateErrorAmended (today : Date) (ann : AnnouncementCreate) : Option ApiError :=
  match parseDate ann.expiration_date with
  | none => some (.invalidInput invalidDateDetail)
  | some exp_date =>
    if Date.ltb exp_date today then
      some (.invalidInput "Expiration date cannot be in the past")
    else
      match ann.start_date with
      | none => none
      | some s =>
        if s == "" then none
        else
          match parseDate s with
          | none => some (.invalidInput invalidDateDetail)
          | some st =>
            if Date.ltb exp_date st then
              some (.invalidInput "Start date cannot be after expiration date")
            else none

/-! ### Helper lemmas about the string order -/

theorem strLtL_self (l : List Char) : strLtL l l = false := by
  induction l with
  | nil => rfl
  | cons a as ih => simp [strLtL, ih]

theorem strLtL_nil_right (l : List Char) : strLtL l [] = false := by
  cases l <;> rfl

theorem strGe_refl (s : String) : strGe s s = true := by
  simp [strGe, strLtL_self]

theorem strLe_refl (s : String) : strLe s s = true := by
  simp [strLe, strLtL_self]

theorem strLe_empty (s : String) : strLe "" s = true := by
  have h : ("" : String).toList = [] := rfl
  simp [strLe, h, strLtL_nil_right]

/-- The implementation's two visibility tests, conjoined, agree with the
specification's predicate on every document. -/
theorem visible_eq_spec (today : String) (d : StoredAnnouncement) :
    (mongoActiveQuery today d && ! startDateHides today d) = specActiveVisible today d := by
  unfold mongoActiveQuery startDateHides specActiveVisible truthyStr
  cases hsd : d.start_date with
  | none => simp
  | some s =>
    by_cases hs : s = ""
    · subst hs; simp [strLe_empty]
    · have hb : (s != "") = true := by simpa using hs
      simp [hb, strGt, strLe, Bool.and_assoc]

/-! ### Helper lemmas about the id round-trip -/

theorem isDigitCh_digitChar (d : Nat) : isDigitCh (digitChar d) = true := by
  unfold digitChar
  repeat' split
  all_goals decide

theorem charVal_digitChar {d : Nat} (h : d < 10) : charVal (digitChar d) = d := by
  interval_cases d <;> decide

theorem digitsVal_append (l : List Char) (c : Char) :
    digitsVal (l ++ [c]) = digitsVal l * 10 + (c.toNat - 48) := by
  simp [digitsVal, List.foldl_append]

theorem digitsVal_natDigitsAux :
    ∀ fuel n, n ≤ fuel → digitsVal (natDigitsAux fuel n).reverse = n := by
  intro fuel
  induction fuel with
  | zero =>
    intro n hn
    interval_cases n
    rfl
  | succ f ih =>
    intro n hn
    match n with
    | 0 => rfl
    | m + 1 =>
      show digitsVal (digitChar ((m + 1) % 10) :: natDigitsAux f ((m + 1) / 10)).reverse = m + 1
      rw [List.reverse_cons, digitsVal_append]
      have h1 : (m + 1) / 10 ≤ f := by omega
      rw [ih _ h1]
      have h2 : (m + 1) % 10 < 10 := Nat.mod_lt _ (by norm_num)
      have h3 := charVal_digitChar h2
      unfold charVal at h3
      rw [h3]
      omega

theorem natDigitsAux_all_digits :
    ∀ fuel n c, c ∈ natDigitsAux fuel n → isDigitCh c = true := by
  intro fuel
  induction fuel with
  | zero =>
    intro n c hc
    simp [natDigitsAux] at hc
  | succ f ih =>
    intro n c hc
    match n with
    | 0 => simp [natDigitsAux] at hc
    | m + 1 =>
      simp only [natDigitsAux, List.mem_cons] at hc
      rcases hc with h | h
      · subst h; exact isDigitCh_digitChar _
      · exact ih _ _ h

/-- Parsing the string form of a storage key recovers the key: the model's
counterpart of `ObjectId(str(oid)) == oid`. -/
theorem parseKey_keyToId (k : Nat) : parseKey (keyToId k) = some k := by
  by_cases hk : k = 0
  · subst hk; decide
  · unfold keyToId parseKey
    rw [if_neg hk]
    have htl : (String.mk (natDigitsAux k k).reverse).toList = (natDigitsAux k k).reverse := rfl
    rw [htl]
    obtain ⟨m, rfl⟩ : ∃ m, k = m + 1 := ⟨k - 1, by omega⟩
    have hne : (natDigitsAux (m + 1) (m + 1)).reverse.isEmpty = false := by
      simp [natDigitsAux]
    rw [hne]
    have hall : (natDigitsAux (m + 1) (m + 1)).reverse.all isDigitCh = true := by
      rw [List.all_eq_true]
      intro c hc
      exact natDigitsAux_all_digits _ _ _ (List.mem_reverse.mp hc)
    rw [hall]
    have hv := digitsVal_natDigitsAux (m + 1) (m + 1) (Nat.le_refl _)
    simp [hv]

theorem keyToId_inj {a b : Nat} (h : keyToId a = keyToId b) : a = b := by
  have ha := parseKey_keyToId a
  rw [h, parseKey_keyToId b] at ha
  exact (Option.some.inj ha).symm

/-! ### Helper lemmas about the store primitives -/

theorem findKey_key {docs : List StoredAnnouncement} {k : Nat} {d : StoredAnnouncement}
    (h : findKey docs k = some d) : d.key = k := by
  have := List.find?_some h
  simpa using this

theorem findKey_mem {docs : List StoredAnnouncement} {k : Nat} {d : StoredAnnouncement}
    (h : findKey docs k = some d) : d ∈ docs :=
  List.mem_of_find?_eq_some h

theorem hasKey_of_findKey {docs : List StoredAnnouncement} {k : Nat} {d : StoredAnnouncement}
    (h : findKey docs k = some d) : hasKey docs k = true := by
  rw [hasKey, List.any_eq_true]
  exact ⟨d, findKey_mem h, by simp [findKey_key h]⟩

/-- Writing back the very record that was found leaves the collection
unchanged. -/
theorem setFirstKey_of_findKey {docs : List StoredAnnouncement} {k : Nat}
    {old : StoredAnnouncement} (h : findKey docs k = some old) :
    setFirstKey docs k old = docs := by
  induction docs with
  | nil => simp [findKey] at h
  | cons d ds ih =>
    rw [findKey, List.find?_cons] at h
    by_cases hd : d.key == k
    · rw [hd] at h
      simp only [cond_true] at h
      rw [setFirstKey, if_pos hd, Option.some.inj h]
    · rw [Bool.eq_false_iff.mpr hd] at h
      simp only [cond_false] at h
      rw [setFirstKey, if_neg (by simpa using hd), ih h]

theorem mem_setFirstKey_of_ne {docs : List StoredAnnouncement} {k : Nat}
    {v d : StoredAnnouncement} (hd : d ∈ docs) (hne : d.key ≠ k) :
    d ∈ setFirstKey docs k v := by
  induction docs with
  | nil => cases hd
  | cons a as ih =>
    rw [setFirstKey]
    by_cases ha : a.key == k
    · rw [if_pos ha]
      rcases List.mem_cons.mp hd with h | h
      · exact absurd (h ▸ (by simpa using ha)) hne
      · exact List.mem_cons_of_mem _ h
    · rw [if_neg (by simpa using ha)]
      rcases List.mem_cons.mp hd with h | h
      · exact h ▸ List.mem_cons_self _ _
      · exact List.mem_cons_of_mem _ (ih h)

/-- Replacing a record by one carrying the same key preserves the key list. -/
theorem setFirstKey_keys {docs : List StoredAnnouncement} {k : Nat}
    {v : StoredAnnouncement} (hv : v.key = k) :
    (setFirstKey docs k v).map (fun d => d.key) = docs.map (fun d => d.key) := by
  induction docs with
  | nil => rfl
  | cons a as ih =>
    rw [setFirstKey]
    by_cases ha : a.key == k
    · rw [if_pos ha]
      simp only [List.map_cons]
      rw [hv, (by simpa using ha : a.key = k)]
    · rw [if_neg (by simpa using ha)]
      simp only [List.map_cons, ih]

/-- With distinct keys, the only record of the rewritten collection carrying
the target key is the written record itself. -/
theorem eq_of_mem_setFirstKey_key {docs : List StoredAnnouncement} {k : Nat}
    {v d : StoredAnnouncement} (hnd : (docs.map (fun x => x.key)).Nodup)
    (hd : d ∈ setFirstKey docs k v) (hdk : d.key = k) : d = v := by
  induction docs with
  | nil => cases hd
  | cons a as ih =>
    simp only [List.map_cons, List.nodup_cons] at hnd
    obtain ⟨hna, hnd'⟩ := hnd
    rw [setFirstKey] at hd
    by_cases ha : a.key == k
    · rw [if_pos ha] at hd
      rcases List.mem_cons.mp hd with h | h
      · exact h
      · exfalso
        apply hna
        rw [(by simpa using ha : a.key = k), ← hdk]
        exact List.mem_map_of_mem _ h
    · rw [if_neg (by simpa using ha)] at hd
      rcases List.mem_cons.mp hd with h | h
      · exact absurd (h ▸ hdk) (by simpa using ha)
      · exact ih hnd' h

/-- With distinct keys, erasing the first record with a key removes every
record with that key. -/
theorem hasKey_eraseFirstKey_of_nodup {docs : List StoredAnnouncement} {k : Nat}
    (hnd : (docs.map (fun x => x.key)).Nodup) :
    hasKey (eraseFirstKey docs k) k = false := by
  induction docs with
  | nil => rfl
  | cons a as ih =>
    simp only [List.map_cons, List.nodup_cons] at hnd
    obtain ⟨hna, hnd'⟩ := hnd
    rw [eraseFirstKey]
    by_cases ha : a.key == k
    · rw [if_pos ha]
      rw [hasKey, List.any_eq_false]
      intro d hdm hdk
      apply hna
      rw [(by simpa using ha : a.key = k), ← (by simpa using hdk : d.key = k)]
      exact List.mem_map_of_mem _ hdm
    · rw [if_neg (by simpa using ha)]
      have h2 := ih hnd'
      rw [hasKey] at h2 ⊢
      rw [List.any_cons, (show (a.key == k) = false by simpa using ha), Bool.false_or]
      exact h2

/-- A fresh document appended at the end is what a key lookup finds when the
key was absent before. -/
theorem findKey_append_fresh {docs : List StoredAnnouncement} {k : Nat}
    (h : hasKey docs k = false) (doc : StoredAnnouncement) (hdoc : doc.key = k) :
    findKey (docs ++ [doc]) k = some doc := by
  induction docs with
  | nil =>
    rw [List.nil_append, findKey, List.find?_cons]
    rw [(by simp [hdoc] : (doc.key == k) = true)]
  | cons a as ih =>
    rw [hasKey, List.any_cons, Bool.or_eq_false_iff] at h
    obtain ⟨ha, has⟩ := h
    rw [List.cons_append, findKey, List.find?_cons, ha]
    simp only [cond_false]
    exact ih has

/-- The create-time validation agrees with the amended spec-side validation:
the implementation's truthiness test on `start_date` is exactly "absent or
empty string". -/
theorem createDateError_eq_amended (today : Date) (ann : AnnouncementCreate) :
    createDateError today ann = specCreateErrorAmended today ann := by
  unfold createDateError specCreateErrorAmended
  cases hexp : parseDate ann.expiration_date with
  | none => rfl
  | some exp_date =>
    by_cases hpast : Date.ltb exp_date today
    · simp [hpast]
    · cases hsd : ann.start_date with
      | none => simp [hpast, truthyStr]
      | some s =>
        by_cases hs : s = ""
        · subst hs; simp [hpast, truthyStr]
        · have hb : (s != "") = true := by simpa using hs
          have hb2 : (s == "") = false := by simpa using hs
          simp [hpast, truthyStr, hb, hb2]

/-! ### Reduction of the three mutating operations under successful auth -/

theorem create_announcement_auth (teachers : List String) (store : Store) (today : Date)
    (ann : AnnouncementCreate) (u : String) (hu : teachers.contains u = true) :
    create_announcement teachers store today ann u =
      match createDateError today ann with
      | some e => .error e
      | none => .ok (toPublic (createdDoc store ann), storeAfterCreate store ann) := by
  unfold create_announcement
  rw [hu]
  rfl

theorem update_announcement_auth (teachers : List String) (store : Store) (id : String)
    (ann : AnnouncementUpdate) (u : String) (hu : teachers.contains u = true) :
    update_announcement teachers store id ann u =
      match parseKey id with
      | none => .error (.invalidInput "Invalid announcement ID")
      | some obj_id =>
        match findKey store.docs obj_id with
        | none => .error .notFound
        | some existing =>
          match updateDateError existing ann with
          | some e => .error e
          | none =>
            .ok (toPublic (applyUpdateDoc existing ann),
              { store with docs := setFirstKey store.docs obj_id (applyUpdateDoc existing ann) }) := by
  unfold update_announcement
  rw [hu]
  rfl

theorem delete_announcement_auth (teachers : List String) (store : Store) (id u : String)
    (hu : teachers.contains u = true) :
    delete_announcement teachers store id u =
      match parseKey id with
      | none => .error (.invalidInput "Invalid announcement ID")
      | some obj_id =>
        if hasKey store.docs obj_id then
          .ok ("Announcement deleted successfully",
            { store with docs := eraseFirstKey store.docs obj_id })
        else .error .notFound := by
  unfold delete_announcement
  rw [hu]
  rfl

/-! ### Sample data used by the concrete witnesses -/

/-- A teacher directory containing the single known identity `"t"`. -/
def sampleTeachers : List String := ["t"]

/-- A stored announcement whose window closes exactly on the sample day. -/
def sampleDoc : StoredAnnouncement :=
  { key := 1
    message := "hello"
    start_date := some "2025-06-01"
    expiration_date := "2025-06-01"
    is_active := true }

/-- A one-document store whose next key is `2`. -/
def sampleStore : Store := { nextKey := 2, docs := [sampleDoc] }

/-- The sample reference date, as a calendar date. -/
def sampleToday : Date := ⟨2025, 6, 1⟩

/-- A well-formed creation request with a far-future expiration. -/
def sampleCreate : AnnouncementCreate :=
  { message := "m"
    start_date := some "2099-01-01"
    expiration_date := "2099-01-02"
    is_active := true }

/-- A creation request whose `start_date` is the empty string. -/
def sampleCreateEmptyStart : AnnouncementCreate :=
  { message := "m"
    start_date := some ""
    expiration_date := "2099-01-02"
    is_active := true }

/-! ### Claims -/

/-- C1: with `active_only = true`, the list operation returns exactly the
announcements satisfying the specification's predicate — `is_active == true`
and `expiration_date >= reference_date` and (`start_date` absent or
`start_date <= reference_date`) — projected to public shape; in particular a
document whose `expiration_date` equals the reference date is included
(inclusive upper bound) and one whose `start_date` equals the reference date
is included (inclusive lower bound). -/
theorem list_active_only_matches_spec (store : Store) (today : String) :
    get_announcements store today true
        = (store.docs.filter (specActiveVisible today)).map toPublic ∧
    ∀ d ∈ store.docs, d.is_active = true → d.expiration_date = today →
      (d.start_date = none ∨ d.start_date = some today) →
      toPublic d ∈ get_announcements store today true := by
  have hmain : get_announcements store today true
      = (store.docs.filter (specActiveVisible today)).map toPublic := by
    show ((store.docs.filter (mongoActiveQuery today)).filter
        (fun d => !(true && startDateHides today d))).map toPublic = _
    rw [List.filter_filter]
    congr 1
    apply List.filter_congr
    intro d _
    rw [Bool.true_and, Bool.and_comm]
    exact visible_eq_spec today d
  refine ⟨hmain, ?_⟩
  intro d hmem hact hexp hsd
  rw [hmain]
  apply List.mem_map_of_mem
  rw [List.mem_filter]
  refine ⟨hmem, ?_⟩
  unfold specActiveVisible
  rw [hact, hexp, strGe_refl, Bool.true_and, Bool.true_and]
  rcases hsd with h | h
  · rw [h]; rfl
  · rw [h]
    simp [strLe_refl]

/-- C1 witness: on the sample store, the sample document — active, with both
its start and expiration date equal to the reference date — is listed. -/
theorem list_active_only_matches_spec_holds :
    toPublic sampleDoc ∈ get_announcements sampleStore "2025-06-01" true :=
  (list_active_only_matches_spec sampleStore "2025-06-01").2 sampleDoc
    (by simp [sampleStore]) (by decide) (by decide) (Or.inr (by decide))

/-- C2 counterexample: the claim says creation fails with `InvalidInput`
whenever a supplied `start_date` is malformed, but a request supplying the
(malformed) empty-string `start_date` is accepted by the code: the truthiness
test skips the start-date checks entirely. -/
theorem create_rejects_exactly_refuted :
    claimCreateRejects sampleToday sampleCreateEmptyStart = true ∧
    create_announcement sampleTeachers sampleStore sampleToday sampleCreateEmptyStart "t"
        = .ok (toPublic (createdDoc sampleStore sampleCreateEmptyStart),
               storeAfterCreate sampleStore sampleCreateEmptyStart) := by
  constructor
  · decide
  · rfl

/-- C2 (amended): for a valid teacher identity, creation runs the claim's
checks in order — malformed `expiration_date`, past `expiration_date`,
malformed supplied `start_date`, `start_date > expiration_date` — except that
an empty-string `start_date` is treated as absent; the first failing check
yields its `InvalidInput` error, and when none fires the record is persisted
under the store's next key. -/
theorem create_checks_in_order (teachers : List String) (store : Store) (today : Date)
    (ann : AnnouncementCreate) (u : String) (h : teachers.contains u = true) :
    create_announcement teachers store today ann u =
      match specCreateErrorAmended today ann with
      | some e => .error e
      | none => .ok (toPublic (createdDoc store ann), storeAfterCreate store ann) := by
  unfold create_announcement
  rw [h]
  rw [createDateError_eq_amended]
  rfl

/-- C2 witness: the valid sample creation passes every check and is persisted
under key `2`. -/
theorem create_checks_in_order_holds :
    sampleTeachers.contains "t" = true ∧
    create_announcement sampleTeachers sampleStore sampleToday sampleCreate "t"
      = match specCreateErrorAmended sampleToday sampleCreate with
        | some e => .error e
        | none =>
          .ok (toPublic (createdDoc sampleStore sampleCreate),
               storeAfterCreate sampleStore sampleCreate) :=
  ⟨by decide,
   create_checks_in_order sampleTeachers sampleStore sampleToday sampleCreate "t" (by decide)⟩

/-- A stored announcement whose expiration date already lies in the past. -/
def samplePastDoc : StoredAnnouncement :=
  { key := 5
    message := "old"
    start_date := none
    expiration_date := "2020-01-01"
    is_active := true }

/-- A one-document store holding only the past-dated announcement. -/
def samplePastStore : Store := { nextKey := 6, docs := [samplePastDoc] }

/-- An update request supplying only a new message. -/
def sampleMsgUpdate : AnnouncementUpdate := { message := some "updated" }

/-- An update request supplying only an empty-string start date. -/
def sampleEmptyStartUpdate : AnnouncementUpdate := { start_date := some "" }

/-- C6: a create, update or delete call whose teacher identity is absent from
the teacher directory fails with `Unauthorized`; the operation returns that
error without producing any new store state, so the store is untouched. -/
theorem mutations_unauthorized (teachers : List String) (store : Store) (today : Date)
    (cAnn : AnnouncementCreate) (uAnn : AnnouncementUpdate) (id : String) (u : String)
    (h : teachers.contains u = false) :
    create_announcement teachers store today cAnn u = .error .unauthorized ∧
    update_announcement teachers store id uAnn u = .error .unauthorized ∧
    delete_announcement teachers store id u = .error .unauthorized := by
  unfold create_announcement update_announcement delete_announcement
  rw [h]
  exact ⟨rfl, rfl, rfl⟩

/-- C6 witness: the unknown identity `"intruder"` is rejected by all three
mutating operations on the sample store. -/
theorem mutations_unauthorized_holds :
    create_announcement sampleTeachers sampleStore sampleToday sampleCreate "intruder"
        = .error .unauthorized ∧
    update_announcement sampleTeachers sampleStore "1" {} "intruder" = .error .unauthorized ∧
    delete_announcement sampleTeachers sampleStore "1" "intruder" = .error .unauthorized :=
  mutations_unauthorized sampleTeachers sampleStore sampleToday sampleCreate {} "1" "intruder"
    (by decide)

/-- Applying an update request that supplies no fields changes nothing. -/
theorem applyUpdateDoc_empty (d : StoredAnnouncement) :
    applyUpdateDoc d {} = d := rfl

/-- C5: an update request supplying no fields at all, by a valid teacher on an
existing record, performs no date re-validation, succeeds, and is a no-op
write: the store is returned unchanged, together with the unchanged record. -/
theorem update_no_fields_noop (teachers : List String) (store : Store) (id : String)
    (u : String) (k : Nat) (old : StoredAnnouncement)
    (hu : teachers.contains u = true) (hk : parseKey id = some k)
    (hold : findKey store.docs k = some old) :
    update_announcement teachers store id {} u = .ok (toPublic old, store) := by
  unfold update_announcement
  rw [hu, hk]
  dsimp only
  rw [hold]
  dsimp only
  rw [applyUpdateDoc_empty, setFirstKey_of_findKey hold]
  rfl

/-- C5 witness: the empty update on the sample record returns it unchanged
together with the unchanged store. -/
theorem update_no_fields_noop_holds :
    update_announcement sampleTeachers sampleStore "1" {} "t"
      = .ok (toPublic sampleDoc, sampleStore) :=
  update_no_fields_noop sampleTeachers sampleStore "1" "t" 1 sampleDoc
    (by decide) (by decide) (by decide)

/-- C4: update never fails because the effective expiration lies in the past:
for a valid teacher and an existing record, when the effective expiration
date parses and the effective start date is absent or parses to a date not
after it, the update succeeds — even when the effective expiration date is
strictly before the current reference date. -/
theorem update_allows_past_expiration (teachers : List String) (store : Store) (id : String)
    (ann : AnnouncementUpdate) (u : String) (today : Date) (k : Nat)
    (old : StoredAnnouncement) (e : Date)
    (hu : teachers.contains u = true) (hk : parseKey id = some k)
    (hold : findKey store.docs k = some old)
    (hexp : parseDate (effExpiration old ann) = some e)
    (hstart : effStart old ann = none ∨
      ∃ s st, effStart old ann = some s ∧ parseDate s = some st ∧ st.toKey ≤ e.toKey)
    (hpast : Date.ltb e today = true) :
    update_announcement teachers store id ann u
      = .ok (toPublic (applyUpdateDoc old ann),
             { store with docs := setFirstKey store.docs k (applyUpdateDoc old ann) }) := by
  unfold update_announcement
  rw [hu, hk]
  dsimp only
  rw [hold]
  dsimp only
  have herr : updateDateError old ann = none := by
    unfold updateDateError
    by_cases hf : hasFields ann = true
    · rw [if_pos hf, hexp]
      rcases hstart with h | ⟨s, st, hs, hps, hle⟩
      · rw [h]
        rfl
      · rw [hs]
        by_cases hse : s = ""
        · subst hse
          rfl
        · have hb : (s != "") = true := by simpa using hse
          have hlt : Date.ltb e st = false := by
            unfold Date.ltb
            simp only [decide_eq_false_iff_not, not_lt]
            exact hle
          simp [truthyStr, hb, hps, hlt]
    · rw [if_neg hf]
  rw [herr]
  rfl

/-- C4 witness: updating only the message of the sample record whose
expiration date `2020-01-01` is strictly before the sample day succeeds. -/
theorem update_allows_past_expiration_holds :
    Date.ltb ⟨2020, 1, 1⟩ sampleToday = true ∧
    update_announcement sampleTeachers samplePastStore "5" sampleMsgUpdate "t"
      = .ok (toPublic (applyUpdateDoc samplePastDoc sampleMsgUpdate),
             { samplePastStore with
               docs := setFirstKey samplePastStore.docs 5
                 (applyUpdateDoc samplePastDoc sampleMsgUpdate) }) :=
  ⟨by decide,
   update_allows_past_expiration sampleTeachers samplePastStore "5" sampleMsgUpdate "t"
     sampleToday 5 samplePastDoc ⟨2020, 1, 1⟩ (by decide) (by decide) (by decide)
     (by decide) (Or.inl (by decide)) (by decide)⟩

/-- C10: an update supplying the empty string as `start_date` (with a
well-formed effective expiration date) runs no parse or ordering check on it
— the empty string, though not a parseable date, is treated as absent — and
stores the empty string; the active-only listing then applies no lower-bound
check to the record: its start-date hiding test is false for every reference
date. -/
theorem update_empty_start_skips_checks (teachers : List String) (store : Store) (id : String)
    (ann : AnnouncementUpdate) (u : String) (k : Nat) (old : StoredAnnouncement) (e : Date)
    (hu : teachers.contains u = true) (hk : parseKey id = some k)
    (hold : findKey store.docs k = some old)
    (hsd : ann.start_date = some "")
    (hexp : parseDate (effExpiration old ann) = some e) :
    parseDate "" = none ∧
    update_announcement teachers store id ann u
      = .ok (toPublic (applyUpdateDoc old ann),
             { store with docs := setFirstKey store.docs k (applyUpdateDoc old ann) }) ∧
    (applyUpdateDoc old ann).start_date = some "" ∧
    (∀ today : String, startDateHides today (applyUpdateDoc old ann) = false) := by
  refine ⟨rfl, ?_, ?_, ?_⟩
  · unfold update_announcement
    rw [hu, hk]
    dsimp only
    rw [hold]
    dsimp only
    have herr : updateDateError old ann = none := by
      unfold updateDateError
      have hf : hasFields ann = true := by
        unfold hasFields
        rw [hsd]
        simp
      have hes : effStart old ann = some "" := by
        unfold effStart
        rw [hsd]
      rw [if_pos hf, hexp, hes]
      rfl
    rw [herr]
    rfl
  · unfold applyUpdateDoc
    rw [hsd]
  · intro today
    unfold startDateHides applyUpdateDoc
    rw [hsd]
    rfl

/-- C10 witness: setting the sample record's start date to the empty string
succeeds, stores the empty string, and the stored record is never hidden by
the start-date test. -/
theorem update_empty_start_skips_checks_holds :
    parseDate "" = none ∧
    update_announcement sampleTeachers sampleStore "1" sampleEmptyStartUpdate "t"
      = .ok (toPublic (applyUpdateDoc sampleDoc sampleEmptyStartUpdate),
             { sampleStore with
               docs := setFirstKey sampleStore.docs 1
                 (applyUpdateDoc sampleDoc sampleEmptyStartUpdate) }) ∧
    (applyUpdateDoc sampleDoc sampleEmptyStartUpdate).start_date = some "" ∧
    (∀ today : String,
      startDateHides today (applyUpdateDoc sampleDoc sampleEmptyStartUpdate) = false) :=
  update_empty_start_skips_checks sampleTeachers sampleStore "1" sampleEmptyStartUpdate "t"
    1 sampleDoc ⟨2025, 6, 1⟩ (by decide) (by decide) (by decide) (by decide) (by decide)

/-- C8: for a well-formed identifier, deletion by a valid teacher fails with
`NotFound` when no record carries the key; and (keys being unique) after a
successful deletion, a second deletion of the same identifier fails with
`NotFound`. -/
theorem delete_missing_notFound (teachers : List String) (store : Store) (id : String)
    (u : String) (k : Nat)
    (hu : teachers.contains u = true) (hk : parseKey id = some k) :
    (hasKey store.docs k = false →
      delete_announcement teachers store id u = .error .notFound) ∧
    ((store.docs.map (fun d => d.key)).Nodup →
      ∀ msg store', delete_announcement teachers store id u = .ok (msg, store') →
        delete_announcement teachers store' id u = .error .notFound) := by
  constructor
  · intro habs
    unfold delete_announcement
    rw [hu, hk]
    dsimp only
    rw [habs]
    rfl
  · intro hnd msg store' hok
    rw [delete_announcement_auth teachers store id u hu, hk] at hok
    rw [delete_announcement_auth teachers store' id u hu, hk]
    dsimp only at hok ⊢
    by_cases hhk : hasKey store.docs k = true
    · rw [hhk] at hok
      simp only [if_true, Except.ok.injEq, Prod.mk.injEq] at hok
      obtain ⟨-, hs⟩ := hok
      rw [← hs]
      dsimp only
      rw [hasKey_eraseFirstKey_of_nodup hnd]
      rfl
    · rw [Bool.not_eq_true] at hhk
      rw [hhk] at hok
      simp at hok

/-- C8 witness: deleting the sample record succeeds and empties the store;
deleting the same identifier again fails with `NotFound`. -/
theorem delete_missing_notFound_holds :
    delete_announcement sampleTeachers sampleStore "1" "t"
        = .ok ("Announcement deleted successfully", { sampleStore with docs := [] }) ∧
    delete_announcement sampleTeachers { sampleStore with docs := [] } "1" "t"
        = .error .notFound :=
  ⟨by rfl,
   (delete_missing_notFound sampleTeachers sampleStore "1" "t" 1 (by decide) (by decide)).2
     (by decide) "Announcement deleted successfully" { sampleStore with docs := [] } (by rfl)⟩

/-! ### Inversion of successful create and update calls -/

theorem create_ok_inv (teachers : List String) (store : Store) (today : Date)
    (ann : AnnouncementCreate) (u : String) (pub : Announcement) (store' : Store)
    (h : create_announcement teachers store today ann u = .ok (pub, store')) :
    teachers.contains u = true ∧ createDateError today ann = none ∧
    pub = toPublic (createdDoc store ann) ∧ store' = storeAfterCreate store ann := by
  have hu : teachers.contains u = true := by
    by_contra hc
    rw [Bool.not_eq_true] at hc
    unfold create_announcement at h
    rw [hc] at h
    simp at h
  rw [create_announcement_auth teachers store today ann u hu] at h
  cases herr : createDateError today ann with
  | some e =>
    rw [herr] at h
    simp at h
  | none =>
    rw [herr] at h
    dsimp only at h
    injection h with hpair
    injection hpair with hp hs
    exact ⟨hu, rfl, hp.symm, hs.symm⟩

theorem update_ok_inv (teachers : List String) (store : Store) (id : String)
    (ann : AnnouncementUpdate) (u : String) (pub : Announcement) (store' : Store)
    (h : update_announcement teachers store id ann u = .ok (pub, store')) :
    teachers.contains u = true ∧
    ∃ k old, parseKey id = some k ∧ findKey store.docs k = some old ∧
      updateDateError old ann = none ∧
      pub = toPublic (applyUpdateDoc old ann) ∧
      store' = { store with docs := setFirstKey store.docs k (applyUpdateDoc old ann) } := by
  have hu : teachers.contains u = true := by
    by_contra hc
    rw [Bool.not_eq_true] at hc
    unfold update_announcement at h
    rw [hc] at h
    simp at h
  rw [update_announcement_auth teachers store id ann u hu] at h
  cases hpk : parseKey id with
  | none =>
    rw [hpk] at h
    simp at h
  | some k =>
    rw [hpk] at h
    dsimp only at h
    cases hfind : findKey store.docs k with
    | none =>
      rw [hfind] at h
      simp at h
    | some old =>
      rw [hfind] at h
      dsimp only at h
      cases herr : updateDateError old ann with
      | some e =>
        rw [herr] at h
        simp at h
      | none =>
        rw [herr] at h
        dsimp only at h
        injection h with hpair
        injection hpair with hp hs
        exact ⟨hu, k, old, rfl, hfind, herr, hp.symm, hs.symm⟩

/-- C7: a successful creation returns the request's fields unchanged, the
only addition being the assigned id, and looking the returned id up in the
resulting store yields exactly the inserted document (the store's next key
being fresh). -/
theorem create_get_roundtrip (teachers : List String) (store : Store) (today : Date)
    (ann : AnnouncementCreate) (u : String) (pub : Announcement) (store' : Store)
    (hfresh : hasKey store.docs store.nextKey = false)
    (h : create_announcement teachers store today ann u = .ok (pub, store')) :
    pub.id = keyToId store.nextKey ∧
    get_by_id store' pub.id = some (createdDoc store ann) ∧
    pub.message = ann.message ∧ pub.start_date = ann.start_date ∧
    pub.expiration_date = ann.expiration_date ∧ pub.is_active = ann.is_active := by
  obtain ⟨-, -, hp, hs⟩ := create_ok_inv teachers store today ann u pub store' h
  subst hp
  subst hs
  refine ⟨rfl, ?_, rfl, rfl, rfl, rfl⟩
  show get_by_id (storeAfterCreate store ann) (keyToId store.nextKey)
    = some (createdDoc store ann)
  unfold get_by_id
  rw [parseKey_keyToId]
  show findKey (store.docs ++ [createdDoc store ann]) store.nextKey
    = some (createdDoc store ann)
  exact findKey_append_fresh hfresh _ rfl

/-- C7 witness: creating the sample request in the sample store (fresh next
key `2`) and looking up the returned id `"2"` gives back exactly the
submitted fields. -/
theorem create_get_roundtrip_holds :
    (toPublic (createdDoc sampleStore sampleCreate)).id = keyToId sampleStore.nextKey ∧
    get_by_id (storeAfterCreate sampleStore sampleCreate)
        (toPublic (createdDoc sampleStore sampleCreate)).id
      = some (createdDoc sampleStore sampleCreate) ∧
    (toPublic (createdDoc sampleStore sampleCreate)).message = sampleCreate.message ∧
    (toPublic (createdDoc sampleStore sampleCreate)).start_date = sampleCreate.start_date ∧
    (toPublic (createdDoc sampleStore sampleCreate)).expiration_date
      = sampleCreate.expiration_date ∧
    (toPublic (createdDoc sampleStore sampleCreate)).is_active = sampleCreate.is_active :=
  create_get_roundtrip sampleTeachers sampleStore sampleToday sampleCreate "t"
    (toPublic (createdDoc sampleStore sampleCreate)) (storeAfterCreate sampleStore sampleCreate)
    (by decide) (by rfl)

/-- C3: a successful update changes only the supplied fields of the matched
record — every unsupplied field keeps its stored value, every other record
is untouched, and the next key is unchanged; in particular an update
supplying only `is_active = false` keeps the message and both dates and (keys
being unique) removes the record from every subsequent active-only listing. -/
theorem update_frame (teachers : List String) (store : Store) (id : String)
    (ann : AnnouncementUpdate) (u : String) (pub : Announcement) (store' : Store)
    (hnd : (store.docs.map (fun d => d.key)).Nodup)
    (h : update_announcement teachers store id ann u = .ok (pub, store')) :
    ∃ k old, parseKey id = some k ∧ findKey store.docs k = some old ∧
      pub = toPublic (applyUpdateDoc old ann) ∧
      store'.nextKey = store.nextKey ∧
      store'.docs = setFirstKey store.docs k (applyUpdateDoc old ann) ∧
      (∀ d ∈ store.docs, d.key ≠ k → d ∈ store'.docs) ∧
      (ann.message = none → (applyUpdateDoc old ann).message = old.message) ∧
      (ann.start_date = none → (applyUpdateDoc old ann).start_date = old.start_date) ∧
      (ann.expiration_date = none →
        (applyUpdateDoc old ann).expiration_date = old.expiration_date) ∧
      (ann.is_active = none → (applyUpdateDoc old ann).is_active = old.is_active) ∧
      (ann = { is_active := some false } →
        (applyUpdateDoc old ann).message = old.message ∧
        (applyUpdateDoc old ann).start_date = old.start_date ∧
        (applyUpdateDoc old ann).expiration_date = old.expiration_date ∧
        (applyUpdateDoc old ann).is_active = false ∧
        ∀ today, pub ∉ get_announcements store' today true) := by
  obtain ⟨-, k, old, hpk, hfind, -, hp, hs⟩ := update_ok_inv teachers store id ann u pub store' h
  subst hp
  subst hs
  refine ⟨k, old, hpk, hfind, rfl, rfl, rfl, ?_, ?_, ?_, ?_, ?_, ?_⟩
  · intro d hd hne
    exact mem_setFirstKey_of_ne hd hne
  · intro hm
    show ann.message.getD old.message = old.message
    rw [hm]
    rfl
  · intro hm
    show (match ann.start_date with | some s => some s | none => old.start_date)
      = old.start_date
    rw [hm]
  · intro hm
    show ann.expiration_date.getD old.expiration_date = old.expiration_date
    rw [hm]
    rfl
  · intro hm
    show ann.is_active.getD old.is_active = old.is_active
    rw [hm]
    rfl
  · intro hann
    subst hann
    refine ⟨rfl, rfl, rfl, rfl, ?_⟩
    intro today hmem
    obtain ⟨d', hd'f, hd'eq⟩ := List.mem_map.mp hmem
    have hd'f1 := (List.mem_filter.mp hd'f).1
    have hd'in := (List.mem_filter.mp hd'f1).1
    have hq := (List.mem_filter.mp hd'f1).2
    have hact : d'.is_active = true := by
      simp only [mongoActiveQuery, Bool.and_eq_true] at hq
      exact hq.1
    have hkid : keyToId d'.key = keyToId old.key := congrArg Announcement.id hd'eq
    have hkey : d'.key = k := by
      rw [keyToId_inj hkid]
      exact findKey_key hfind
    have hdv : d' = applyUpdateDoc old { is_active := some false } :=
      eq_of_mem_setFirstKey_key hnd hd'in hkey
    rw [hdv] at hact
    have hfalse : (applyUpdateDoc old { is_active := some false }).is_active = false := rfl
    rw [hfalse] at hact
    exact Bool.false_ne_true hact

/-- C3 witness: deactivating the sample record changes only `is_active`; the
record keeps its message and dates and no longer appears in the active-only
listing for its own day. -/
theorem update_frame_holds :
    ∃ k old, parseKey "1" = some k ∧ findKey sampleStore.docs k = some old ∧
      toPublic (applyUpdateDoc sampleDoc { is_active := some false })
          = toPublic (applyUpdateDoc old { is_active := some false }) ∧
      ({ sampleStore with
          docs := setFirstKey sampleStore.docs 1
            (applyUpdateDoc sampleDoc { is_active := some false }) } : Store).nextKey
        = sampleStore.nextKey ∧
      ({ sampleStore with
          docs := setFirstKey sampleStore.docs 1
            (applyUpdateDoc sampleDoc { is_active := some false }) } : Store).docs
        = setFirstKey sampleStore.docs k (applyUpdateDoc old { is_active := some false }) ∧
      (∀ d ∈ sampleStore.docs, d.key ≠ k →
        d ∈ ({ sampleStore with
          docs := setFirstKey sampleStore.docs 1
            (applyUpdateDoc sampleDoc { is_active := some false }) } : Store).docs) ∧
      (({ is_active := some false } : AnnouncementUpdate).message = none →
        (applyUpdateDoc old { is_active := some false }).message = old.message) ∧
      (({ is_active := some false } : AnnouncementUpdate).start_date = none →
        (applyUpdateDoc old { is_active := some false }).start_date = old.start_date) ∧
      (({ is_active := some false } : AnnouncementUpdate).expiration_date = none →
        (applyUpdateDoc old { is_active := some false }).expiration_date
          = old.expiration_date) ∧
      (({ is_active := some false } : AnnouncementUpdate).is_active = none →
        (applyUpdateDoc old { is_active := some false }).is_active = old.is_active) ∧
      (({ is_active := some false } : AnnouncementUpdate)
          = { is_active := some false } →
        (applyUpdateDoc old { is_active := some false }).message = old.message ∧
        (applyUpdateDoc old { is_active := some false }).start_date = old.start_date ∧
        (applyUpdateDoc old { is_active := some false }).expiration_date
          = old.expiration_date ∧
        (applyUpdateDoc old { is_active := some false }).is_active = false ∧
        ∀ today, toPublic (applyUpdateDoc sampleDoc { is_active := some false })
          ∉ get_announcements
            { sampleStore with
              docs := setFirstKey sampleStore.docs 1
                (applyUpdateDoc sampleDoc { is_active := some false }) } today true) :=
  update_frame sampleTeachers sampleStore "1" { is_active := some false } "t"
    (toPublic (applyUpdateDoc sampleDoc { is_active := some false }))
    { sampleStore with
      docs := setFirstKey sampleStore.docs 1
        (applyUpdateDoc sampleDoc { is_active := some false }) }
    (by decide) (by rfl)

/-- C9: every announcement returned by list, create or update is in public
shape: its `id` is the string form of the underlying storage key (parsing it
back gives that key), and the value is the key-free projection `toPublic` of
a stored document — the returned record type carries no storage key field. -/
theorem public_shape_ids (store : Store) (today : String) (active_only : Bool)
    (teachers : List String) (dtoday : Date) (cAnn : AnnouncementCreate)
    (uAnn : AnnouncementUpdate) (id u : String) (pub pub2 : Announcement) (s1 s2 : Store) :
    (∀ a ∈ get_announcements store today active_only,
      ∃ d ∈ store.docs, a = toPublic d ∧ a.id = keyToId d.key ∧ parseKey a.id = some d.key) ∧
    (create_announcement teachers store dtoday cAnn u = .ok (pub, s1) →
      pub = toPublic (createdDoc store cAnn) ∧
      pub.id = keyToId store.nextKey ∧ parseKey pub.id = some store.nextKey) ∧
    (update_announcement teachers store id uAnn u = .ok (pub2, s2) →
      ∃ k old, parseKey id = some k ∧ findKey store.docs k = some old ∧
        pub2 = toPublic (applyUpdateDoc old uAnn) ∧
        pub2.id = keyToId k ∧ parseKey pub2.id = some k) := by
  refine ⟨?_, ?_, ?_⟩
  · intro a ha
    cases active_only with
    | true =>
      obtain ⟨d, hdf, hdeq⟩ := List.mem_map.mp ha
      have hd1 := (List.mem_filter.mp hdf).1
      have hdin := (List.mem_filter.mp hd1).1
      subst hdeq
      exact ⟨d, hdin, rfl, rfl, parseKey_keyToId d.key⟩
    | false =>
      obtain ⟨d, hdf, hdeq⟩ := List.mem_map.mp ha
      have hdin := (List.mem_filter.mp hdf).1
      subst hdeq
      exact ⟨d, hdin, rfl, rfl, parseKey_keyToId d.key⟩
  · intro h
    obtain ⟨-, -, hp, -⟩ := create_ok_inv teachers store dtoday cAnn u pub s1 h
    subst hp
    exact ⟨rfl, rfl, parseKey_keyToId store.nextKey⟩
  · intro h
    obtain ⟨-, k, old, hpk, hfind, -, hp, -⟩ := update_ok_inv teachers store id uAnn u pub2 s2 h
    subst hp
    refine ⟨k, old, hpk, hfind, rfl, ?_, ?_⟩
    · show keyToId old.key = keyToId k
      rw [findKey_key hfind]
    · show parseKey (keyToId old.key) = some k
      rw [findKey_key hfind]
      exact parseKey_keyToId k

/-- C9 witness: the record returned by the sample creation carries id `"2"`,
the string form of the assigned storage key `2`, which parses back to it. -/
theorem public_shape_ids_holds :
    toPublic (createdDoc sampleStore sampleCreate)
        = toPublic (createdDoc sampleStore sampleCreate) ∧
    (toPublic (createdDoc sampleStore sampleCreate)).id = keyToId sampleStore.nextKey ∧
    parseKey (toPublic (createdDoc sampleStore sampleCreate)).id = some sampleStore.nextKey :=
  (public_shape_ids sampleStore "2025-06-01" true sampleTeachers sampleToday sampleCreate
    {} "1" "t" (toPublic (createdDoc sampleStore sampleCreate)) (toPublic sampleDoc)
    (storeAfterCreate sampleStore sampleCreate) sampleStore).2.1 (by rfl)

end Announcements
